import Mathlib

/-
  Verification of the unollvm control-flow-unflattening tool.

  Shallow embedding of src/unollvm/shape.py, src/unollvm/patch.py and
  src/unollvm/deobfus.py.  External collaborators (the angr project
  factory, the capstone disassembler, the keystone assembler and the
  symbolic execution engine) are modelled as an `Oracle` record of pure
  functions, exactly mirroring the narrow interface the source consumes.
  The Control model (control.py is not part of the sources) is modelled
  from the spec as a plain record of the four fields patch.py reads.
-/

set_option autoImplicit false

/-- A claripy-style bitvector AST: either a concrete value (`op = 'BVV'`)
or an unresolved symbolic expression identified by a tag. -/
inductive SVal where
  | bvv (v : Nat)
  | sym (tag : String)
deriving DecidableEq, Repr

/-- Byte-swap of a 4-byte little-endian integer; models what claripy's
`.reversed` does to a concrete 32-bit bitvector. -/
def reverse4 (v : Nat) : Nat :=
  let b0 := v % 256
  let b1 := v / 256 % 256
  let b2 := v / 65536 % 256
  let b3 := v / 16777216 % 256
  ((b0 * 256 + b1) * 256 + b2) * 256 + b3

/-- Model of claripy's `.reversed`: concrete on a BVV, and a fresh
symbolic expression (a Reverse node) on a symbolic AST. -/
def SVal.reversed : SVal → SVal
  | .bvv v => .bvv (reverse4 v)
  | .sym t => .sym (t ++ "_rev")

/-- `sym_is_val` from patch.py: `sym.op == 'BVV'`. -/
def sym_is_val : SVal → Bool
  | .bvv _ => true
  | .sym _ => false

/-- Model of `(x == y).is_true()` on claripy ASTs: true exactly when both
sides are the same concrete value or the identical symbolic expression. -/
def sym_eq_is_true : SVal → SVal → Bool
  | .bvv a, .bvv b => a == b
  | .sym s, .sym t => s == t
  | _, _ => false

/-- Every way an analysis of one function can abort: Python `assert`
failures, raised `Exception`s, `KeyError`/`IndexError` from dict/list
access, plus `outOfFuel`, the embedding's marker for a run of the
source's unbounded loops that exceeds the modelling fuel. -/
inductive PErr where
  | assertFail (site : String)
  | unhandledJumpkind
  | unhandledOperandType
  | cannotFindInitialSwval
  | cannotDetermineTransfer (case_addr : Nat)
  | keyError
  | indexError
  | outOfFuel
deriving DecidableEq, Repr

/-- VEX jumpkinds distinguished by the source. -/
inductive Jumpkind where
  | boring
  | call
  | ret
  | other
deriving DecidableEq, Repr

/-- What `proj.factory.block(addr)` exposes: address, byte size, VEX
jumpkind and the addresses of the block's instructions. -/
structure FBlock where
  addr : Nat
  size : Nat
  jumpkind : Jumpkind
  instruction_addrs : List Nat
deriving DecidableEq, Repr

/-- Capstone operand kinds the source distinguishes. -/
inductive OpType where
  | reg
  | other
deriving DecidableEq, Repr

/-- A capstone operand.  `regName` is the lowercase register name, i.e.
the image of the operand's register id under `capstone_reg_to_name`. -/
structure Operand where
  type : OpType
  regName : String
deriving DecidableEq, Repr

/-- A capstone instruction as consumed by patch.py. -/
structure Insn where
  address : Nat
  size : Nat
  mnemonic : String
  operands : List Operand
deriving DecidableEq, Repr

/-- Result of `state.step(num_inst=1)`: a list of successor states, or
the `SimZeroDivisionException` patch.py catches. -/
inductive StepOut (St : Type) where
  | succ (ss : List St)
  | zeroDiv

/-- The external collaborators, as the narrow interface patch.py uses:
angr's block factory, the memoized capstone disassembly, keystone's
`asm`, blank states, single-instruction stepping and register/memory
access on symbolic states. -/
structure Oracle (St : Type) where
  arch_bytes : Nat
  block : Nat → FBlock
  disas : Nat → Insn
  asm : Nat → String → List Nat
  blank_state : Nat → St
  step : St → StepOut St
  getReg : St → String → SVal
  setReg : St → String → SVal → St
  load : St → Nat → Nat → SVal

/-- Modelled from the spec: the Control model (control.py is not among
the sources; only its interface is visible from patch.py).  It carries
the state-variable address, the ordered comparator blocks (per the spec
the chain is walked starting at the dispatcher block, so the dispatcher
is its first element), the state-value-to-case-block map and the
baseline frame pointer `default_bp`. -/
structure Control where
  swvar_addr : Nat
  cmps : List Nat
  swmap : List (Nat × Nat)
  default_bp : Nat

/-- The fields of a Shape that patch.py reads. -/
structure ShapeData where
  func_addr : Nat
  collector : Nat
  dispatcher : Nat
  exits : List Nat

/-- Lowercase hex rendering of a number, as Python's `'{:x}'.format`. -/
def hex (n : Nat) : String :=
  String.mk (Nat.toDigits 16 n)

/-- Python `str.startswith`, written so that it reduces by computation. -/
def str_startswith (s p : String) : Bool :=
  s.take p.length == p

/-- Python's last-character test `s[-1] == c` generalized to a suffix
test, written so that it reduces by computation. -/
def str_endswith (s p : String) : Bool :=
  s.drop (s.length - p.length) == p

/-- Python dict subscript on the switch map: value on hit, `KeyError`
otherwise. -/
def lookupD (m : List (Nat × Nat)) (k : Nat) : Except PErr Nat :=
  match m.find? (fun p => p.1 == k) with
  | some p => .ok p.2
  | none => .error .keyError

/-- Python `k in m` on the switch map. -/
def keyMem (m : List (Nat × Nat)) (k : Nat) : Bool :=
  m.any (fun p => p.1 == k)

/-- `Patch.make_patch`: `for n in range(len(code)): patches[addr+n] = code[n]`.
The PatchSet is kept as the ordered trace of byte writes so that
overwrites of earlier writes by later ones remain observable. -/
def make_patch (patches : List (Nat × Nat)) (addr : Nat) (code : List Nat) :
    List (Nat × Nat) :=
  patches ++ (List.range code.length).map (fun n => (addr + n, code.getD n 0))

/-- The dict view of the write trace: the last write to an address wins,
exactly as repeated Python dict assignment behaves. -/
def apply_patches (image : Nat → Nat) (ws : List (Nat × Nat)) : Nat → Nat :=
  fun a =>
    match ws.reverse.find? (fun p => p.1 == a) with
    | some p => p.2
    | none => image a

/-! ## Shape detector (shape.py) -/

/-- `block_contains(outer, inner)` from shape.py, on the two blocks'
address/size pairs. -/
def block_contains (oaddr osize iaddr isize : Nat) : Bool :=
  oaddr ≤ iaddr && iaddr + isize ≤ oaddr + osize

/-- A successor of a CFG node: an angr `BlockNode` (with its own address
range) or a function node (anything that is not a `BlockNode`). -/
inductive SuccNode where
  | block (addr size : Nat)
  | func (addr : Nat)
deriving DecidableEq, Repr

/-- The `.addr` of a successor node. -/
def SuccNode.addrOf : SuccNode → Nat
  | .block a _ => a
  | .func a => a

/-- A node of the function graph: `func.get_node(addr)`. -/
structure Node where
  addr : Nat
  size : Nat
  succs : List SuccNode
deriving DecidableEq, Repr

/-- The function graph data the Shape detector consumes: entry address,
block address list, node lookup and the out-degree table. -/
structure FuncModel where
  addr : Nat
  block_addrs : List Nat
  get_node : Nat → Node
  out_degree : List (Nat × Nat)

/-- `Shape.non_call_bbl`: follow call fallthroughs from `addr` until a
block with jumpkind `Ijk_Boring` or `Ijk_Ret`.  The source's `while
True` loop runs forever on any other jumpkind; the embedding returns
`none` for that divergence (and on fuel exhaustion). -/
def non_call_bbl (blocks : Nat → FBlock) : Nat → Nat → Option FBlock
  | 0, _ => none
  | fuel + 1, addr =>
    let block := blocks addr
    match block.jumpkind with
    | .boring => some block
    | .ret => some block
    | .call => non_call_bbl blocks fuel (block.addr + block.size)
    | .other => none

/-- `Shape.is_collector`: exactly one successor, which is a basic block
lying within the prolog (the function's first non-call basic block). -/
def is_collector (fm : FuncModel) (blocks : Nat → FBlock) (fuel : Nat)
    (addr : Nat) : Bool :=
  match (fm.get_node addr).succs with
  | [s] =>
    match s with
    | .func _ => false
    | .block saddr ssize =>
      match non_call_bbl blocks fuel fm.addr with
      | some p => block_contains p.addr p.size saddr ssize
      | none => false
  | _ => false

/-- `Shape.is_exit`: out-degree of the first non-call block is zero; a
node absent from the out-degree table is conservatively an exit. -/
def is_exit (fm : FuncModel) (blocks : Nat → FBlock) (fuel : Nat)
    (addr : Nat) : Bool :=
  match non_call_bbl blocks fuel addr with
  | some block =>
    match fm.out_degree.find? (fun p => p.1 == block.addr) with
    | some p => p.2 == 0
    | none => true
  | none => true

/-- `Shape.try_consolidate_collectors`: with exactly two candidates,
return the one whose block range is contained in the other's (the
source returns `addr1` when `node0` contains `node1`), else `None`. -/
def try_consolidate_collectors (get_node : Nat → Node)
    (collectors : List Nat) : Option Nat :=
  match collectors with
  | [addr0, addr1] =>
    let node0 := get_node addr0
    let node1 := get_node addr1
    if block_contains node0.addr node0.size node1.addr node1.size then
      some addr1
    else if block_contains node1.addr node1.size node0.addr node0.size then
      some addr0
    else
      none
  | _ => none

/-- The result fields of `Shape.analyze` (plus the `is_ollvm` flag the
constructor stores). -/
structure ShapeResult where
  is_ollvm : Bool
  collector : Option Nat
  dispatcher : Option Nat
  exits : List Nat
deriving DecidableEq, Repr

/-- `Shape.analyze`: filter the collector candidates, consolidate when
there is not exactly one, take the collector's jump target as the
dispatcher and collect the exit nodes.  (The source reads
`successors()[0]` of the selected collector; a candidate always has
exactly one successor, and the embedding exposes the empty case as
`dispatcher = none`.) -/
def shape_analyze (fm : FuncModel) (blocks : Nat → FBlock) (fuel : Nat) :
    ShapeResult :=
  let collectors := fm.block_addrs.filter (is_collector fm blocks fuel)
  let collector? : Option Nat :=
    if collectors.length ≠ 1 then
      try_consolidate_collectors fm.get_node collectors
    else
      collectors.head?
  match collector? with
  | none => { is_ollvm := false, collector := none, dispatcher := none, exits := [] }
  | some c =>
    let dispatcher := ((fm.get_node c).succs.head?).map SuccNode.addrOf
    let exits := fm.block_addrs.filter (is_exit fm blocks fuel)
    { is_ollvm := true, collector := some c, dispatcher := dispatcher, exits := exits }

/-! ## Patch synthesizer (patch.py) -/

/-- `Patch.get_swvar`: `state.memory.load(swvar_addr, 4).reversed`
(state variable assumed a 4-byte integer). -/
def get_swvar {St : Type} (o : Oracle St) (ctl : Control) (st : St) : SVal :=
  (o.load st ctl.swvar_addr 4).reversed

/-- `get_insn_operand`: read a register operand's current value, masked
to 32 bits when the capstone name ends in `d`; `None` when the register
holds a symbolic value; any non-register operand raises. -/
def get_insn_operand {St : Type} (o : Oracle St) (st : St) (op : Operand) :
    Except PErr (Option Nat) :=
  match op.type with
  | .reg =>
    let reg_name := op.regName
    let p :=
      if str_endswith reg_name "d" then (reg_name.dropRight 1, 2 ^ 32 - 1)
      else (reg_name, 2 ^ 64 - 1)
    match o.getReg st p.1 with
    | .bvv v => .ok (some (v &&& p.2))
    | .sym _ => .ok none
  | .other => .error .unhandledOperandType

/-- `Patch.exec_insn`: step one instruction; a divide-by-zero from the
engine is caught and the pre-step state returned unchanged; otherwise
exactly one successor state is asserted and returned. -/
def exec_insn {St : Type} (o : Oracle St) (st : St) : Except PErr St :=
  match o.step st with
  | .zeroDiv => .ok st
  | .succ ss =>
    match ss with
    | [s] => .ok s
    | _ => .error (.assertFail "exec_insn: exactly one successor")

/-- `Patch.exec_insns`: for each instruction address, first consult the
`on_insn` callback (which may stop the walk), then set `pc` and step.
The callback's closure state is threaded through as `a`. -/
def exec_insns {St A : Type} (o : Oracle St)
    (on_insn : Option (A → St → Nat → Except PErr (A × Bool))) :
    A → St → List Nat → Except PErr (A × St)
  | a, st, [] => .ok (a, st)
  | a, st, addr :: rest =>
    match on_insn with
    | some f =>
      match f a st addr with
      | .error e => .error e
      | .ok (a', cont) =>
        if cont then
          match exec_insn o (o.setReg st "pc" (.bvv addr)) with
          | .error e => .error e
          | .ok st' => exec_insns o on_insn a' st' rest
        else
          .ok (a', st)
    | none =>
      match exec_insn o (o.setReg st "pc" (.bvv addr)) with
      | .error e => .error e
      | .ok st' => exec_insns o on_insn a st' rest

/-- `Patch.exec_block`: execute a basic block.  A `Boring` block runs
all instructions and returns the concrete `pc`; a `Call` block runs all
but the call and instead writes an opaque symbolic return value tagged
by the call-site address into `eax`, returning the fallthrough address;
any other jumpkind raises. -/
def exec_block {St A : Type} (o : Oracle St)
    (on_insn : Option (A → St → Nat → Except PErr (A × Bool)))
    (a : A) (st : St) (addr : Nat) : Except PErr (A × St × Nat) :=
  let block := o.block addr
  let insn_addrs := block.instruction_addrs
  match block.jumpkind with
  | .boring =>
    match exec_insns o on_insn a st insn_addrs with
    | .error e => .error e
    | .ok (a', st') =>
      match o.getReg st' "pc" with
      | .bvv pc => .ok (a', st', pc)
      | .sym _ => .error (.assertFail "sym_val")
  | .call =>
    match exec_insns o on_insn a st insn_addrs.dropLast with
    | .error e => .error e
    | .ok (a', st') =>
      match insn_addrs.getLast? with
      | none => .error .indexError
      | some callAddr =>
        let st'' := o.setReg st' "eax" (.sym ("retval_from_" ++ hex callAddr))
        .ok (a', st'', addr + block.size)
  | _ => .error .unhandledJumpkind

/-- The `check_swvar` callback of `Patch.analyze_dispatcher`: record the
switch variable's value and stop stepping as soon as it is concrete. -/
def check_swvar {St : Type} (o : Oracle St) (ctl : Control)
    (a : Option Nat) (st : St) (_addr : Nat) :
    Except PErr (Option Nat × Bool) :=
  match get_swvar o ctl st with
  | .bvv v => .ok (some v, false)
  | .sym _ => .ok (a, true)

/-- `Patch.patch_dispatcher`: assemble a direct jump to the initial
case block at the dispatcher's address, assert it fits in the
dispatcher block, and record it. -/
def patch_dispatcher {St : Type} (o : Oracle St) (shape : ShapeData)
    (ctl : Control) (patches : List (Nat × Nat)) (init_swval : Nat) :
    Except PErr (List (Nat × Nat)) :=
  match lookupD ctl.swmap init_swval with
  | .error e => .error e
  | .ok target =>
    let insn_addr := shape.dispatcher
    let text := "jmp 0x" ++ hex target
    let code := o.asm insn_addr text
    if code.length ≤ (o.block shape.dispatcher).size then
      .ok (make_patch patches insn_addr code)
    else
      .error (.assertFail "patch_dispatcher: enough room for the patch")

/-- The `while` loop of `Patch.analyze_dispatcher`: step block by block
from the entry until `check_swvar` observes a concrete switch value
(then emit the dispatcher patch), erroring out if the collector or an
exit block is reached first.  `a` is the `init_swval` field, always
`none` at the loop head (a concrete observation returns immediately);
the source's fall-through when it is already set patches nothing. -/
def analyze_dispatcher_loop {St : Type} (o : Oracle St) (shape : ShapeData)
    (ctl : Control) (patches : List (Nat × Nat)) :
    Nat → Option Nat → St → Nat → Except PErr (List (Nat × Nat))
  | 0, a, _st, addr =>
    if addr ≠ shape.collector ∧ addr ∉ shape.exits then
      .error .outOfFuel
    else
      match a with
      | none => .error .cannotFindInitialSwval
      | some _ => .ok patches
  | fuel + 1, a, st, addr =>
    if addr ≠ shape.collector ∧ addr ∉ shape.exits then
      match exec_block o (some (check_swvar o ctl)) a st addr with
      | .error e => .error e
      | .ok (a', st', addr') =>
        match a' with
        | some v => patch_dispatcher o shape ctl patches v
        | none => analyze_dispatcher_loop o shape ctl patches fuel none st' addr'
    else
      match a with
      | none => .error .cannotFindInitialSwval
      | some _ => .ok patches

/-- `Patch.analyze_dispatcher`: blank state at the function entry with
`sp` forced to `default_bp() + arch.bytes`, then the search loop. -/
def analyze_dispatcher {St : Type} (o : Oracle St) (shape : ShapeData)
    (ctl : Control) (patches : List (Nat × Nat)) (fuel : Nat) :
    Except PErr (List (Nat × Nat)) :=
  let addr := shape.func_addr
  let st0 := o.blank_state addr
  let st1 := o.setReg st0 "sp" (.bvv (ctl.default_bp + o.arch_bytes))
  analyze_dispatcher_loop o shape ctl patches fuel none st1 addr

/-- `Patch.patch_uncond`: replace the final `jmp` of `block_addr` by a
jump to `target`, asserting the old jump's mnemonic and that the new
encoding fits in the old instruction. -/
def patch_uncond {St : Type} (o : Oracle St) (patches : List (Nat × Nat))
    (block_addr target : Nat) : Except PErr (List (Nat × Nat)) :=
  let block := o.block block_addr
  match block.instruction_addrs.getLast? with
  | none => .error .indexError
  | some insn_addr =>
    let text := "jmp 0x" ++ hex target
    let code := o.asm insn_addr text
    let last_insn := o.disas insn_addr
    if last_insn.mnemonic = "jmp" then
      if last_insn.size ≥ code.length then
        .ok (make_patch patches insn_addr code)
      else
        .error (.assertFail "patch_uncond: enough room for the patch")
    else
      .error (.assertFail "patch_uncond: last insn of the block is jmp")

/-- `Patch.patch_cond`: turn the conditional move at `addr` into a
conditional jump with the same condition code to `target`, asserting it
fits in the cavity up to the block's last instruction, and filling the
remaining cavity bytes with nops. -/
def patch_cond {St : Type} (o : Oracle St) (patches : List (Nat × Nat))
    (addr target : Nat) : Except PErr (List (Nat × Nat)) :=
  let cmov_insn := o.disas addr
  if cmov_insn.mnemonic.take 4 = "cmov" then
    let cc := cmov_insn.mnemonic.drop 4
    let text := "j" ++ cc ++ " 0x" ++ hex target
    let code := o.asm addr text
    let block := o.block addr
    match block.instruction_addrs.getLast? with
    | none => .error .indexError
    | some last_insn_addr =>
      let cavity_size : Int := (last_insn_addr : Int) - (addr : Int)
      if (code.length : Int) ≤ cavity_size then
        let code' := code ++ List.replicate (cavity_size - code.length).toNat 0x90
        .ok (make_patch patches addr code')
      else
        .error (.assertFail "patch_cond: enough room for the patch")
  else
    .error (.assertFail "patch_cond: cmov mnemonic")

/-- The `record_cmov` callback of `Patch.analyze_case`: remember every
conditional-move instruction both of whose current operand values are
keys of the switch map. -/
def record_cmov {St : Type} (o : Oracle St) (ctl : Control)
    (a : List (Nat × Nat × Nat)) (st : St) (addr : Nat) :
    Except PErr (List (Nat × Nat × Nat) × Bool) :=
  let insn := o.disas addr
  if str_startswith insn.mnemonic "cmov" then
    match insn.operands with
    | op0 :: op1 :: _ =>
      match get_insn_operand o st op0 with
      | .error e => .error e
      | .ok f =>
        match get_insn_operand o st op1 with
        | .error e => .error e
        | .ok t =>
          match f, t with
          | some fv, some tv =>
            if keyMem ctl.swmap fv ∧ keyMem ctl.swmap tv then
              .ok (a ++ [(addr, fv, tv)], true)
            else
              .ok (a, true)
          | _, _ => .ok (a, true)
    | _ => .error .indexError
  else
    .ok (a, true)

/-- The `while True` loop of `Patch.analyze_case`: execute blocks with
`record_cmov` until the next address is the collector; the result keeps
the address of the last executed block (whose final jump is patched). -/
def analyze_case_loop {St : Type} (o : Oracle St) (shape : ShapeData)
    (ctl : Control) :
    Nat → List (Nat × Nat × Nat) → St → Nat →
      Except PErr (List (Nat × Nat × Nat) × St × Nat)
  | 0, _, _, _ => .error .outOfFuel
  | fuel + 1, a, st, addr =>
    match exec_block o (some (record_cmov o ctl)) a st addr with
    | .error e => .error e
    | .ok (a', st', next_addr) =>
      if next_addr = shape.collector then .ok (a', st', addr)
      else analyze_case_loop o shape ctl fuel a' st' next_addr

/-- The classification tail of `Patch.analyze_case`: if the switch
variable changed, exactly one recorded conditional move yields the
two-way patch pair, otherwise a concrete final value yields the one-way
patch, and any remaining combination raises naming the case address. -/
def analyze_case_classify {St : Type} (o : Oracle St) (ctl : Control)
    (case : Nat) (patches : List (Nat × Nat)) (orig_swvar : SVal)
    (cmov_info : List (Nat × Nat × Nat)) (st : St) (final_addr : Nat) :
    Except PErr (List (Nat × Nat)) :=
  let curr_swvar := get_swvar o ctl st
  if ¬ (sym_eq_is_true orig_swvar curr_swvar = true) then
    match cmov_info with
    | [(cmov_addr, f, t)] =>
      match lookupD ctl.swmap f with
      | .error e => .error e
      | .ok f_block =>
        match lookupD ctl.swmap t with
        | .error e => .error e
        | .ok t_block =>
          match patch_cond o patches cmov_addr t_block with
          | .error e => .error e
          | .ok patches' => patch_uncond o patches' final_addr f_block
    | _ =>
      if sym_is_val curr_swvar then
        match curr_swvar with
        | .bvv v =>
          match lookupD ctl.swmap v with
          | .error e => .error e
          | .ok target => patch_uncond o patches final_addr target
        | .sym _ => .error (.assertFail "sym_val")
      else
        .error (.cannotDetermineTransfer case)
  else
    .ok patches

/-- `Patch.analyze_case`: blank state at the case address with `bp`
forced to `default_bp()`, record the original switch-variable value,
run to the collector, then classify the recovered transfer. -/
def analyze_case {St : Type} (o : Oracle St) (shape : ShapeData)
    (ctl : Control) (patches : List (Nat × Nat)) (fuel : Nat) (case : Nat) :
    Except PErr (List (Nat × Nat)) :=
  let st0 := o.blank_state case
  let st := o.setReg st0 "bp" (.bvv ctl.default_bp)
  let orig_swvar := get_swvar o ctl st
  match analyze_case_loop o shape ctl fuel [] st case with
  | .error e => .error e
  | .ok (cmov_info, st', final_addr) =>
    analyze_case_classify o ctl case patches orig_swvar cmov_info st' final_addr

/-- `Patch.mute_block`: overwrite the whole block at `addr` with nops. -/
def mute_block {St : Type} (o : Oracle St) (patches : List (Nat × Nat))
    (addr : Nat) : List (Nat × Nat) :=
  let block := o.block addr
  let code := List.replicate block.size 0x90
  make_patch patches block.addr code

/-- `Patch.mute_dispatcher`: mute every comparator block, then the
collector block. -/
def mute_dispatcher {St : Type} (o : Oracle St) (shape : ShapeData)
    (ctl : Control) (patches : List (Nat × Nat)) : List (Nat × Nat) :=
  let patches' := ctl.cmps.foldl (mute_block o) patches
  mute_block o patches' shape.collector

/-- `Patch.analyze`: Pass 0 mutes the dispatch logic, Pass 1 resolves
and patches the initial dispatch, Pass 2 analyzes every non-exit case
block of the switch map. -/
def patch_analyze {St : Type} (o : Oracle St) (shape : ShapeData)
    (ctl : Control) (fuel : Nat) : Except PErr (List (Nat × Nat)) :=
  let patches0 := mute_dispatcher o shape ctl []
  match analyze_dispatcher o shape ctl patches0 fuel with
  | .error e => .error e
  | .ok patches1 =>
    (ctl.swmap.map Prod.snd).foldlM
      (fun ps case =>
        if case ∉ shape.exits then analyze_case o shape ctl ps fuel case
        else .ok ps)
      patches1

/-! ## Orchestrator (deobfus.py) -/

/-- Outcome of `Deobfuscator.analyze_func` for one function: returned
early because the shape is not flattened (neither the Control model nor
the Patch synthesizer is invoked), produced a patch set, or aborted. -/
inductive FuncOutcome where
  | skipped
  | patched (ws : List (Nat × Nat))
  | failed (e : PErr)
deriving DecidableEq, Repr

/-- `Deobfuscator.analyze_func`: compute the Shape; if it is not
flattened, return before constructing the Control model or the Patch
synthesizer; otherwise run the patch pipeline. -/
def analyze_func {St : Type} (fm : FuncModel) (blocks : Nat → FBlock)
    (fuel : Nat) (mkControl : ShapeResult → Control) (o : Oracle St) :
    FuncOutcome :=
  let shape := shape_analyze fm blocks fuel
  if shape.is_ollvm = false then
    .skipped
  else
    match shape.collector, shape.dispatcher with
    | some c, some d =>
      let ctl := mkControl shape
      match patch_analyze o ⟨fm.addr, c, d, shape.exits⟩ ctl fuel with
      | .ok ws => .patched ws
      | .error e => .failed e
    | _, _ => .failed .keyError

/-- Applying an analysis outcome to the binary image: only a produced
patch set changes bytes. -/
def apply_outcome (image : Nat → Nat) : FuncOutcome → Nat → Nat
  | .skipped => image
  | .patched ws => apply_patches image ws
  | .failed _ => image

/-! ## Concrete machines used to evaluate the embedding

Scenario `S`: a flattened function with prolog `0x1000`, dispatcher
`0x1008` (first comparator), collector `0x2000`, a two-way case at
`0x3000` and an exit case at `0x4000`.  Scenario `T`: a case block at
`0x6000` with two recorded conditional moves and a concrete final
switch value.  Scenario `V`: the switch variable becomes concrete at
the last instruction of the block in front of the collector. -/

/-- A concrete symbolic-execution state for the scenario oracles. -/
structure CState where
  pc : SVal
  sp : SVal
  bp : SVal
  eax : SVal
  ecx : SVal
  edx : SVal
  swvar : SVal
deriving DecidableEq, Repr

/-- Register read on a concrete state. -/
def cGetReg (st : CState) (r : String) : SVal :=
  if r = "pc" then st.pc
  else if r = "sp" then st.sp
  else if r = "bp" then st.bp
  else if r = "eax" then st.eax
  else if r = "ecx" then st.ecx
  else if r = "edx" then st.edx
  else .sym r

/-- Register write on a concrete state. -/
def cSetReg (st : CState) (r : String) (v : SVal) : CState :=
  if r = "pc" then { st with pc := v }
  else if r = "sp" then { st with sp := v }
  else if r = "bp" then { st with bp := v }
  else if r = "eax" then { st with eax := v }
  else if r = "ecx" then { st with ecx := v }
  else if r = "edx" then { st with edx := v }
  else st

/-- A blank state at `addr`: concrete `pc`, everything else symbolic. -/
def cBlank (addr : Nat) : CState :=
  { pc := .bvv addr, sp := .sym "sp0", bp := .sym "bp0", eax := .sym "eax0",
    ecx := .sym "ecx0", edx := .sym "edx0", swvar := .sym "swvar0" }

/-- Block table of scenario S. -/
def sBlock : Nat → FBlock
  | 0x1000 => ⟨0x1000, 0x10, .boring, [0x1000, 0x1004, 0x1008]⟩
  | 0x1008 => ⟨0x1008, 0x8, .boring, [0x1008]⟩
  | 0x2000 => ⟨0x2000, 0x4, .boring, [0x2000]⟩
  | 0x3000 => ⟨0x3000, 0x13, .boring, [0x3000, 0x3004, 0x3008, 0x300b, 0x300e]⟩
  | 0x3008 => ⟨0x3008, 0xb, .boring, [0x3008, 0x300b, 0x300e]⟩
  | a => ⟨a, 1, .other, []⟩

/-- Disassembly table of scenario S. -/
def sDisas : Nat → Insn
  | 0x3000 => ⟨0x3000, 4, "mov", []⟩
  | 0x3004 => ⟨0x3004, 4, "mov", []⟩
  | 0x3008 => ⟨0x3008, 3, "cmovne", [⟨.reg, "edx"⟩, ⟨.reg, "ecx"⟩]⟩
  | 0x300b => ⟨0x300b, 3, "mov", []⟩
  | 0x300e => ⟨0x300e, 5, "jmp", []⟩
  | a => ⟨a, 1, "nop", []⟩

/-- Assembler table of scenario S. -/
def sAsm (_addr : Nat) (text : String) : List Nat :=
  if text = "jmp 0x3000" then [0xe9, 0x11, 0x22, 0x33, 0x44]
  else if text = "jne 0x4000" then [0x0f, 0x85, 0xaa, 0xbb, 0xcc, 0xdd]
  else []

/-- Stepper of scenario S.  `0x1004` stores `1` into the switch
variable (raw little-endian memory image `0x01000000`); the case block
at `0x3000` loads the two switch values into `ecx`/`edx`, conditionally
moves, stores the symbolic result and jumps to the collector. -/
def sStep (st : CState) : StepOut CState :=
  match st.pc with
  | .bvv 0x1000 => .succ [{ st with pc := .bvv 0x1004 }]
  | .bvv 0x1004 => .succ [{ st with pc := .bvv 0x1008, swvar := .bvv 0x01000000 }]
  | .bvv 0x3000 => .succ [{ st with pc := .bvv 0x3004, ecx := .bvv 2 }]
  | .bvv 0x3004 => .succ [{ st with pc := .bvv 0x3008, edx := .bvv 1 }]
  | .bvv 0x3008 => .succ [{ st with pc := .bvv 0x300b, edx := .sym "ite" }]
  | .bvv 0x300b => .succ [{ st with pc := .bvv 0x300e, swvar := .sym "ite_raw" }]
  | .bvv 0x300e => .succ [{ st with pc := .bvv 0x2000 }]
  | _ => .succ []

/-- The oracle of scenario S. -/
def sOracle : Oracle CState :=
  { arch_bytes := 8, block := sBlock, disas := sDisas, asm := sAsm,
    blank_state := cBlank, step := sStep, getReg := cGetReg,
    setReg := cSetReg, load := fun st _ _ => st.swvar }

/-- Shape of scenario S. -/
def sShape : ShapeData := ⟨0x1000, 0x2000, 0x1008, [0x4000]⟩

/-- Control model of scenario S: the comparator chain starts at the
dispatcher block, as the spec prescribes. -/
def sCtl : Control := ⟨0x5000, [0x1008], [(1, 0x3000), (2, 0x4000)], 0x7fff0000⟩

/-- Block table of scenario T. -/
def tBlock : Nat → FBlock
  | 0x6000 => ⟨0x6000, 0x16, .boring, [0x6000, 0x6004, 0x6008, 0x600b, 0x600e, 0x6011]⟩
  | a => ⟨a, 1, .boring, []⟩

/-- Disassembly table of scenario T: two conditional moves whose
operands are both switch values. -/
def tDisas : Nat → Insn
  | 0x6000 => ⟨0x6000, 4, "mov", []⟩
  | 0x6004 => ⟨0x6004, 4, "mov", []⟩
  | 0x6008 => ⟨0x6008, 3, "cmovne", [⟨.reg, "edx"⟩, ⟨.reg, "ecx"⟩]⟩
  | 0x600b => ⟨0x600b, 3, "cmova", [⟨.reg, "edx"⟩, ⟨.reg, "ecx"⟩]⟩
  | 0x600e => ⟨0x600e, 3, "mov", []⟩
  | 0x6011 => ⟨0x6011, 5, "jmp", []⟩
  | a => ⟨a, 1, "nop", []⟩

/-- Assembler table of scenario T. -/
def tAsm (_addr : Nat) (text : String) : List Nat :=
  if text = "jmp 0x7000" then [0xe9, 0x51, 0x52, 0x53, 0x54]
  else []

/-- Stepper of scenario T: both conditional moves resolve concretely,
and `0x600e` stores the concrete value `2` (raw image `0x02000000`). -/
def tStep (st : CState) : StepOut CState :=
  match st.pc with
  | .bvv 0x6000 => .succ [{ st with pc := .bvv 0x6004, ecx := .bvv 2 }]
  | .bvv 0x6004 => .succ [{ st with pc := .bvv 0x6008, edx := .bvv 1 }]
  | .bvv 0x6008 => .succ [{ st with pc := .bvv 0x600b }]
  | .bvv 0x600b => .succ [{ st with pc := .bvv 0x600e, edx := .bvv 2 }]
  | .bvv 0x600e => .succ [{ st with pc := .bvv 0x6011, swvar := .bvv 0x02000000 }]
  | .bvv 0x6011 => .succ [{ st with pc := .bvv 0x2000 }]
  | _ => .succ []

/-- The oracle of scenario T. -/
def tOracle : Oracle CState :=
  { arch_bytes := 8, block := tBlock, disas := tDisas, asm := tAsm,
    blank_state := cBlank, step := tStep, getReg := cGetReg,
    setReg := cSetReg, load := fun st _ _ => st.swvar }

/-- Shape of scenario T. -/
def tShape : ShapeData := ⟨0x1000, 0x2000, 0x1008, []⟩

/-- Control model of scenario T. -/
def tCtl : Control := ⟨0x5000, [0x1008], [(1, 0x6000), (2, 0x7000)], 0x7fff0000⟩

/-- Block table of scenario V: one block in front of the collector. -/
def vBlock : Nat → FBlock
  | 0x1000 => ⟨0x1000, 0x4, .boring, [0x1000]⟩
  | a => ⟨a, 1, .boring, []⟩

/-- Stepper of scenario V: the single instruction makes the switch
variable concrete (value `5`, raw image `0x05000000`) and falls through
to the collector. -/
def vStep (st : CState) : StepOut CState :=
  match st.pc with
  | .bvv 0x1000 => .succ [{ st with pc := .bvv 0x2000, swvar := .bvv 0x05000000 }]
  | _ => .succ []

/-- The oracle of scenario V. -/
def vOracle : Oracle CState :=
  { arch_bytes := 8, block := vBlock, disas := fun a => ⟨a, 1, "nop", []⟩,
    asm := fun _ _ => [], blank_state := cBlank, step := vStep,
    getReg := cGetReg, setReg := cSetReg, load := fun st _ _ => st.swvar }

/-- Shape of scenario V. -/
def vShape : ShapeData := ⟨0x1000, 0x2000, 0x1008, []⟩

/-- Control model of scenario V: `5` is a switch value with a case. -/
def vCtl : Control := ⟨0x5000, [0x1008], [(5, 0x3000)], 0x7fff0000⟩

/-- An oracle whose stepper always raises divide-by-zero. -/
def zOracle : Oracle CState :=
  { arch_bytes := 8, block := fun a => ⟨a, 1, .boring, []⟩,
    disas := fun a => ⟨a, 1, "nop", []⟩, asm := fun _ _ => [],
    blank_state := cBlank, step := fun _ => .zeroDiv,
    getReg := cGetReg, setReg := cSetReg, load := fun st _ _ => st.swvar }

/-- An oracle whose stepper forks into two successor states. -/
def yOracle : Oracle CState :=
  { arch_bytes := 8, block := fun a => ⟨a, 1, .boring, []⟩,
    disas := fun a => ⟨a, 1, "nop", []⟩, asm := fun _ _ => [],
    blank_state := cBlank, step := fun st => .succ [st, st],
    getReg := cGetReg, setReg := cSetReg, load := fun st _ _ => st.swvar }

/-- An oracle whose stepper returns exactly one successor state. -/
def wOracle : Oracle CState :=
  { arch_bytes := 8, block := fun a => ⟨a, 1, .boring, []⟩,
    disas := fun a => ⟨a, 1, "nop", []⟩, asm := fun _ _ => [],
    blank_state := cBlank, step := fun st => .succ [st],
    getReg := cGetReg, setReg := cSetReg, load := fun st _ _ => st.swvar }

/-- An oracle for exercising the capacity checks of `patch_uncond` and
`patch_cond`: the cavity at `0x9008` is 5 bytes, the cavity of the
conditional move at `0x9003` is `0x9008 - 0x9003 = 5` bytes, and the
assembler produces 5-byte encodings for the `0xaa00` targets and 6-byte
encodings for the `0xbb00` targets. -/
def uOracle : Oracle CState :=
  { arch_bytes := 8,
    block := fun a =>
      if a = 0x9000 then ⟨0x9000, 0x10, .boring, [0x9000, 0x9003, 0x9008]⟩
      else if a = 0x9003 then ⟨0x9003, 0xd, .boring, [0x9003, 0x9006, 0x9008]⟩
      else ⟨a, 1, .boring, []⟩,
    disas := fun a =>
      if a = 0x9008 then ⟨0x9008, 5, "jmp", []⟩
      else if a = 0x9003 then ⟨0x9003, 3, "cmove", [⟨.reg, "edx"⟩, ⟨.reg, "ecx"⟩]⟩
      else ⟨a, 1, "nop", []⟩,
    asm := fun _ text =>
      if text = "jmp 0xaa00" then [0xe9, 1, 2, 3, 4]
      else if text = "jmp 0xbb00" then [0xe9, 1, 2, 3, 4, 5]
      else if text = "je 0xaa00" then [0x0f, 0x84, 1, 2, 3]
      else if text = "je 0xbb00" then [0x0f, 0x84, 1, 2, 3, 4]
      else [],
    blank_state := cBlank, step := fun _ => .succ [],
    getReg := cGetReg, setReg := cSetReg, load := fun st _ _ => st.swvar }

/-- Function graph for the C1 counterexample: two collector candidates,
the block of `0x100` (size `0x20`) strictly containing the block of
`0x110` (size `0x10`); both jump back into the prolog at `0x10`. -/
def c1Fm : FuncModel :=
  { addr := 0x10,
    block_addrs := [0x100, 0x110],
    get_node := fun a =>
      if a = 0x100 then ⟨0x100, 0x20, [.block 0x10 4]⟩
      else if a = 0x110 then ⟨0x110, 0x10, [.block 0x12 4]⟩
      else ⟨a, 1, []⟩,
    out_degree := [(0x100, 1), (0x110, 1)] }

/-- Block table shared by the C1 function graphs: the prolog at `0x10`
is a plain block, everything else likewise. -/
def c1Blocks : Nat → FBlock
  | 0x10 => ⟨0x10, 0x40, .boring, []⟩
  | a => ⟨a, 1, .boring, []⟩

/-- Function graph with two disjoint collector candidates. -/
def c1FmDisjoint : FuncModel :=
  { addr := 0x10,
    block_addrs := [0x100, 0x200],
    get_node := fun a =>
      if a = 0x100 then ⟨0x100, 0x8, [.block 0x10 4]⟩
      else if a = 0x200 then ⟨0x200, 0x8, [.block 0x12 4]⟩
      else ⟨a, 1, []⟩,
    out_degree := [(0x100, 1), (0x200, 1)] }

/-- Function graph with three collector candidates. -/
def c1FmThree : FuncModel :=
  { addr := 0x10,
    block_addrs := [0x100, 0x110, 0x120],
    get_node := fun a =>
      if a = 0x100 then ⟨0x100, 0x8, [.block 0x10 4]⟩
      else if a = 0x110 then ⟨0x110, 0x8, [.block 0x12 4]⟩
      else if a = 0x120 then ⟨0x120, 0x8, [.block 0x14 4]⟩
      else ⟨a, 1, []⟩,
    out_degree := [(0x100, 1), (0x110, 1), (0x120, 1)] }

/-- Function graph with no collector candidate at all. -/
def c9Fm : FuncModel :=
  { addr := 0x10,
    block_addrs := [0x100],
    get_node := fun a => ⟨a, 1, []⟩,
    out_degree := [(0x100, 0)] }

/-! ## Helper lemmas about the PatchSet write trace -/

theorem map_fst_make_patch (ps : List (Nat × Nat)) (addr : Nat) (code : List Nat) :
    (make_patch ps addr code).map Prod.fst =
      ps.map Prod.fst ++ (List.range code.length).map (fun n => addr + n) := by
  simp [make_patch, Function.comp]

theorem mem_make_patch (x : Nat × Nat) (ps : List (Nat × Nat)) (addr : Nat)
    (code : List Nat) :
    x ∈ make_patch ps addr code ↔
      x ∈ ps ∨ ∃ i, i < code.length ∧ x = (addr + i, code.getD i 0) := by
  simp only [make_patch, List.mem_append, List.mem_map, List.mem_range]
  constructor
  · rintro (h | ⟨i, hi, rfl⟩)
    · exact Or.inl h
    · exact Or.inr ⟨i, hi, rfl⟩
  · rintro (h | ⟨i, hi, rfl⟩)
    · exact Or.inl h
    · exact Or.inr ⟨i, hi, rfl⟩

theorem getD_replicate (n i c d : Nat) (h : i < n) :
    (List.replicate n c).getD i d = c := by
  induction n generalizing i with
  | zero => omega
  | succ m ih =>
    cases i with
    | zero => simp [List.replicate_succ]
    | succ j =>
      simp only [List.replicate_succ, List.getD_cons_succ]
      exact ih j (by omega)

theorem mem_mute_block {St : Type} (o : Oracle St) (x : Nat × Nat)
    (ps : List (Nat × Nat)) (b : Nat) :
    x ∈ mute_block o ps b ↔
      x ∈ ps ∨ ∃ i, i < (o.block b).size ∧ x = ((o.block b).addr + i, 0x90) := by
  unfold mute_block
  rw [mem_make_patch]
  constructor
  · rintro (h | ⟨i, hi, rfl⟩)
    · exact Or.inl h
    · rw [List.length_replicate] at hi
      exact Or.inr ⟨i, hi, by rw [getD_replicate _ _ _ _ hi]⟩
  · rintro (h | ⟨i, hi, rfl⟩)
    · exact Or.inl h
    · exact Or.inr ⟨i, by simpa using hi, by rw [getD_replicate _ _ _ _ hi]⟩

theorem mem_foldl_mute {St : Type} (o : Oracle St) (x : Nat × Nat)
    (l : List Nat) (ps : List (Nat × Nat)) :
    x ∈ l.foldl (mute_block o) ps ↔
      x ∈ ps ∨ ∃ b ∈ l, ∃ i, i < (o.block b).size ∧
        x = ((o.block b).addr + i, 0x90) := by
  induction l generalizing ps with
  | nil => simp
  | cons hd tl ih =>
    simp only [List.foldl_cons, ih, mem_mute_block, List.mem_cons]
    constructor
    · rintro ((h | ⟨i, hi, rfl⟩) | ⟨b, hb, i, hi, rfl⟩)
      · exact Or.inl h
      · exact Or.inr ⟨hd, Or.inl rfl, i, hi, rfl⟩
      · exact Or.inr ⟨b, Or.inr hb, i, hi, rfl⟩
    · rintro (h | ⟨b, hb | hb, i, hi, rfl⟩)
      · exact Or.inl (Or.inl h)
      · subst hb
        exact Or.inl (Or.inr ⟨i, hi, rfl⟩)
      · exact Or.inr ⟨b, hb, i, hi, rfl⟩

theorem mem_mute_dispatcher {St : Type} (o : Oracle St) (shape : ShapeData)
    (ctl : Control) (x : Nat × Nat) :
    x ∈ mute_dispatcher o shape ctl [] ↔
      ∃ b ∈ ctl.cmps ++ [shape.collector], ∃ i, i < (o.block b).size ∧
        x = ((o.block b).addr + i, 0x90) := by
  unfold mute_dispatcher
  rw [mem_mute_block, mem_foldl_mute]
  constructor
  · rintro ((h | ⟨b, hb, i, hi, rfl⟩) | ⟨i, hi, rfl⟩)
    · simp at h
    · exact ⟨b, by simp [hb], i, hi, rfl⟩
    · exact ⟨shape.collector, by simp, i, hi, rfl⟩
  · rintro ⟨b, hb, i, hi, rfl⟩
    rcases List.mem_append.mp hb with hb | hb
    · exact Or.inl (Or.inr ⟨b, hb, i, hi, rfl⟩)
    · simp only [List.mem_singleton] at hb
      subst hb
      exact Or.inr ⟨i, hi, rfl⟩

/-! ## Claim C7 -/

/-- C7: Pass 0 (`mute_dispatcher`) records one `0x90` byte at every
address of every comparator block and of the collector block, and every
byte it records is a `0x90` lying inside the range of one of those
blocks — no other block is touched by this pass. -/
theorem C7_mute_pass {St : Type} (o : Oracle St) (shape : ShapeData)
    (ctl : Control) :
    (∀ b ∈ ctl.cmps ++ [shape.collector], ∀ i < (o.block b).size,
        ((o.block b).addr + i, 0x90) ∈ mute_dispatcher o shape ctl [])
  ∧ (∀ x ∈ mute_dispatcher o shape ctl [],
        x.2 = 0x90 ∧ ∃ b ∈ ctl.cmps ++ [shape.collector],
          (o.block b).addr ≤ x.1 ∧ x.1 < (o.block b).addr + (o.block b).size) := by
  constructor
  · intro b hb i hi
    exact (mem_mute_dispatcher o shape ctl _).mpr ⟨b, hb, i, hi, rfl⟩
  · intro x hx
    obtain ⟨b, hb, i, hi, rfl⟩ := (mem_mute_dispatcher o shape ctl x).mp hx
    exact ⟨rfl, b, hb, Nat.le_add_right _ _, by omega⟩

/-- C7 witness: in scenario S the mute pass writes `0x90` at the first
byte of the dispatcher block `0x1008` (a comparator block). -/
theorem C7_witness :
    ((0x1008 : Nat), (0x90 : Nat)) ∈ mute_dispatcher sOracle sShape sCtl [] := by
  have h := (C7_mute_pass sOracle sShape sCtl).1 0x1008 (by decide) 0 (by decide)
  simpa using h

/-! ## Claim C2 -/

/-- C2 counterexample: running the full pipeline of scenario S, the
emitted write trace is not pairwise disjoint — the address `0x1008`
(first byte of the dispatcher block, which Pass 0 mutes because the
comparator chain starts at the dispatcher) is written twice: once by
Pass 0 and once by the Pass 1 dispatcher jump, so a previously written
patch byte is overwritten. -/
theorem C2_counterexample :
    (patch_analyze sOracle sShape sCtl 9).map
        (fun ws => decide ((ws.map Prod.fst).Nodup)) = .ok false
  ∧ (patch_analyze sOracle sShape sCtl 9).map
        (fun ws => (ws.map Prod.fst).count 0x1008) = .ok 2 := by
  constructor
  · rfl
  · rfl

/-- C2 (amended): PatchSet writes are plain dict stores with no
disjointness check; whenever the dispatcher block is among the
comparator blocks (the spec's comparator chain starts at the
dispatcher), the Pass 1 dispatcher patch overwrites bytes recorded by
Pass 0 muting, so the write trace after Pass 1 is never duplicate-free. -/
theorem C2_overwrite {St : Type} (o : Oracle St) (shape : ShapeData)
    (ctl : Control) (v target : Nat) (ps : List (Nat × Nat))
    (hmem : shape.dispatcher ∈ ctl.cmps)
    (haddr : (o.block shape.dispatcher).addr = shape.dispatcher)
    (hsz : 1 ≤ (o.block shape.dispatcher).size)
    (hlook : lookupD ctl.swmap v = .ok target)
    (hasm : 1 ≤ (o.asm shape.dispatcher ("jmp 0x" ++ hex target)).length)
    (hpd : patch_dispatcher o shape ctl (mute_dispatcher o shape ctl []) v
      = .ok ps) :
    ¬ (ps.map Prod.fst).Nodup := by
  unfold patch_dispatcher at hpd
  rw [hlook] at hpd
  dsimp only at hpd
  by_cases hfit : (o.asm shape.dispatcher ("jmp 0x" ++ hex target)).length
      ≤ (o.block shape.dispatcher).size
  · rw [if_pos hfit] at hpd
    injection hpd with hps
    subst hps
    rw [map_fst_make_patch]
    intro hnd
    have hdisj := List.disjoint_of_nodup_append hnd
    have hleft : shape.dispatcher ∈ (mute_dispatcher o shape ctl []).map Prod.fst := by
      have hx : ((o.block shape.dispatcher).addr + 0, 0x90)
          ∈ mute_dispatcher o shape ctl [] :=
        (mem_mute_dispatcher _ _ _ _).mpr
          ⟨shape.dispatcher, by simp [hmem], 0, by omega, rfl⟩
      have hm := List.mem_map_of_mem Prod.fst hx
      simpa [haddr] using hm
    have hright : shape.dispatcher ∈
        (List.range (o.asm shape.dispatcher ("jmp 0x" ++ hex target)).length).map
          (fun n => shape.dispatcher + n) :=
      List.mem_map.mpr ⟨0, List.mem_range.mpr (by omega), by omega⟩
    exact hdisj hleft hright
  · rw [if_neg hfit] at hpd
    cases hpd

/-- C2 witness: the amended theorem applied to scenario S — the trace
after muting plus the dispatcher patch has a duplicated address. -/
theorem C2_witness :
    ¬ List.Nodup (List.map Prod.fst
        ([(0x1008, 0x90), (0x1009, 0x90), (0x100a, 0x90), (0x100b, 0x90),
          (0x100c, 0x90), (0x100d, 0x90), (0x100e, 0x90), (0x100f, 0x90),
          (0x2000, 0x90), (0x2001, 0x90), (0x2002, 0x90), (0x2003, 0x90),
          (0x1008, 0xe9), (0x1009, 0x11), (0x100a, 0x22), (0x100b, 0x33),
          (0x100c, 0x44)] : List (Nat × Nat))) :=
  C2_overwrite sOracle sShape sCtl 1 0x3000 _
    (by decide) (by decide) (by decide) (by rfl) (by decide) (by rfl)

/-! ## Claim C1 -/

theorem try_consolidate_eq_none (g : Nat → Node) (l : List Nat)
    (h : l.length ≠ 2) : try_consolidate_collectors g l = none := by
  rcases l with _ | ⟨a, _ | ⟨b, _ | ⟨c, t⟩⟩⟩
  · rfl
  · rfl
  · exact absurd rfl h
  · rfl

/-- C1 counterexample: in the graph `c1Fm` there are exactly two
collector candidates, the block of `0x100` strictly contains the block
of `0x110`, yet `Shape.analyze` selects the CONTAINED block `0x110` as
the collector, not the containing block `0x100` the claim requires. -/
theorem C1_counterexample :
    c1Fm.block_addrs.filter (is_collector c1Fm c1Blocks 2) = [0x100, 0x110]
  ∧ block_contains (c1Fm.get_node 0x100).addr (c1Fm.get_node 0x100).size
      (c1Fm.get_node 0x110).addr (c1Fm.get_node 0x110).size = true
  ∧ block_contains (c1Fm.get_node 0x110).addr (c1Fm.get_node 0x110).size
      (c1Fm.get_node 0x100).addr (c1Fm.get_node 0x100).size = false
  ∧ (shape_analyze c1Fm c1Blocks 2).collector = some 0x110
  ∧ (shape_analyze c1Fm c1Blocks 2).collector ≠ some 0x100 := by
  refine ⟨by decide, by decide, by decide, by decide, by decide⟩

/-- C1 (amended): with exactly two collector candidates, the Shape
Detector selects the CONTAINED block (the source returns `addr1` when
`node0`'s range contains `node1`'s) and discards the containing one; if
neither range contains the other, or the candidate count is neither one
nor two, the function is classified as not flattened. -/
theorem C1_consolidation (fm : FuncModel) (blocks : Nat → FBlock)
    (fuel : Nat) (a0 a1 : Nat) :
    (fm.block_addrs.filter (is_collector fm blocks fuel) = [a0, a1] →
      block_contains (fm.get_node a0).addr (fm.get_node a0).size
          (fm.get_node a1).addr (fm.get_node a1).size = true →
      (shape_analyze fm blocks fuel).is_ollvm = true ∧
        (shape_analyze fm blocks fuel).collector = some a1)
  ∧ (fm.block_addrs.filter (is_collector fm blocks fuel) = [a0, a1] →
      block_contains (fm.get_node a0).addr (fm.get_node a0).size
          (fm.get_node a1).addr (fm.get_node a1).size = false →
      block_contains (fm.get_node a1).addr (fm.get_node a1).size
          (fm.get_node a0).addr (fm.get_node a0).size = true →
      (shape_analyze fm blocks fuel).is_ollvm = true ∧
        (shape_analyze fm blocks fuel).collector = some a0)
  ∧ (fm.block_addrs.filter (is_collector fm blocks fuel) = [a0, a1] →
      block_contains (fm.get_node a0).addr (fm.get_node a0).size
          (fm.get_node a1).addr (fm.get_node a1).size = false →
      block_contains (fm.get_node a1).addr (fm.get_node a1).size
          (fm.get_node a0).addr (fm.get_node a0).size = false →
      (shape_analyze fm blocks fuel).is_ollvm = false)
  ∧ ((fm.block_addrs.filter (is_collector fm blocks fuel)).length ≠ 1 →
      (fm.block_addrs.filter (is_collector fm blocks fuel)).length ≠ 2 →
      (shape_analyze fm blocks fuel).is_ollvm = false) := by
  refine ⟨?_, ?_, ?_, ?_⟩
  · intro hcol h01
    simp only [shape_analyze, hcol, try_consolidate_collectors]
    norm_num [h01]
  · intro hcol h01 h10
    simp only [shape_analyze, hcol, try_consolidate_collectors]
    norm_num [h01, h10]
  · intro hcol h01 h10
    simp only [shape_analyze, hcol, try_consolidate_collectors]
    norm_num [h01, h10]
  · intro h1 h2
    simp only [shape_analyze]
    rw [if_pos h1, try_consolidate_eq_none _ _ h2]

/-- C1 witness: the amended theorem evaluated on the three concrete
graphs — nested candidates select the contained `0x110`, disjoint
candidates and three candidates are not flattened. -/
theorem C1_witness :
    ((shape_analyze c1Fm c1Blocks 2).is_ollvm = true ∧
      (shape_analyze c1Fm c1Blocks 2).collector = some 0x110)
  ∧ (shape_analyze c1FmDisjoint c1Blocks 2).is_ollvm = false
  ∧ (shape_analyze c1FmThree c1Blocks 2).is_ollvm = false :=
  ⟨(C1_consolidation c1Fm c1Blocks 2 0x100 0x110).1 (by decide) (by decide),
   (C1_consolidation c1FmDisjoint c1Blocks 2 0x100 0x200).2.2.1
     (by decide) (by decide) (by decide),
   (C1_consolidation c1FmThree c1Blocks 2 0 0).2.2.2 (by decide) (by decide)⟩

/-! ## Claim C9 -/

/-- C9: when the Shape Detector reports not flattened, the orchestrator
returns before invoking the Control model or the Patch synthesizer
(outcome `skipped`), and applying the outcome leaves every byte of the
binary image unchanged. -/
theorem C9_skip {St : Type} (fm : FuncModel) (blocks : Nat → FBlock)
    (fuel : Nat) (mkControl : ShapeResult → Control) (o : Oracle St)
    (image : Nat → Nat)
    (h : (shape_analyze fm blocks fuel).is_ollvm = false) :
    analyze_func fm blocks fuel mkControl o = .skipped
  ∧ ∀ a, apply_outcome image (analyze_func fm blocks fuel mkControl o) a
      = image a := by
  have hfn : analyze_func fm blocks fuel mkControl o = .skipped := by
    unfold analyze_func
    rw [if_pos h]
  exact ⟨hfn, fun a => by rw [hfn]; rfl⟩

/-- C9 witness: the graph `c9Fm` has no collector candidate, so the
orchestrator skips it and the image byte at `3` keeps its value `7`. -/
theorem C9_witness :
    analyze_func c9Fm c1Blocks 2 (fun _ => sCtl) sOracle = .skipped
  ∧ apply_outcome (fun _ => 7) (analyze_func c9Fm c1Blocks 2 (fun _ => sCtl) sOracle) 3 = 7 :=
  ⟨(C9_skip c9Fm c1Blocks 2 (fun _ => sCtl) sOracle (fun _ => 7) (by decide)).1,
   (C9_skip c9Fm c1Blocks 2 (fun _ => sCtl) sOracle (fun _ => 7) (by decide)).2 3⟩

/-! ## Claim C8 -/

/-- C8: a divide-by-zero raised while stepping one instruction is
recovered locally — `exec_insn` returns the pre-step state unchanged
(the instruction's effect is skipped) and `exec_insns` continues with
the remaining instructions; the exception is never fatal. -/
theorem C8_zero_div {St A : Type} (o : Oracle St) (st : St) (addr : Nat)
    (rest : List Nat) (a : A)
    (h : o.step (o.setReg st "pc" (.bvv addr)) = .zeroDiv) :
    exec_insn o (o.setReg st "pc" (.bvv addr))
      = .ok (o.setReg st "pc" (.bvv addr))
  ∧ exec_insns o (none : Option (A → St → Nat → Except PErr (A × Bool)))
        a st (addr :: rest)
      = exec_insns o (none : Option (A → St → Nat → Except PErr (A × Bool)))
        a (o.setReg st "pc" (.bvv addr)) rest := by
  have h1 : exec_insn o (o.setReg st "pc" (.bvv addr))
      = .ok (o.setReg st "pc" (.bvv addr)) := by
    unfold exec_insn
    rw [h]
  refine ⟨h1, ?_⟩
  conv_lhs => rw [exec_insns]
  rw [h1]

/-- C8 witness: with a stepper that always raises divide-by-zero, the
instruction at `7` is skipped and execution proceeds to `8`. -/
theorem C8_witness :
    exec_insn zOracle (cSetReg (cBlank 0) "pc" (.bvv 7))
      = .ok (cSetReg (cBlank 0) "pc" (.bvv 7))
  ∧ exec_insns zOracle (none : Option (Nat → CState → Nat → Except PErr (Nat × Bool)))
        0 (cBlank 0) [7, 8]
      = exec_insns zOracle (none : Option (Nat → CState → Nat → Except PErr (Nat × Bool)))
        0 (cSetReg (cBlank 0) "pc" (.bvv 7)) [8] :=
  C8_zero_div zOracle (cBlank 0) 7 [8] 0 rfl

/-! ## Claim C10 -/

/-- C10: `exec_insn` asserts that a step yields exactly one successor
state: zero or several successors abort with an assertion failure (no
forking, no silent path choice), and a single successor is returned. -/
theorem C10_single_successor {St : Type} (o : Oracle St) (st : St)
    (ss : List St) (h : o.step st = .succ ss) :
    (ss.length ≠ 1 →
      exec_insn o st = .error (.assertFail "exec_insn: exactly one successor"))
  ∧ (∀ s, ss = [s] → exec_insn o st = .ok s) := by
  constructor
  · intro hlen
    unfold exec_insn
    rw [h]
    rcases ss with _ | ⟨x, _ | ⟨y, t⟩⟩
    · rfl
    · exact absurd rfl hlen
    · rfl
  · rintro s rfl
    unfold exec_insn
    rw [h]

/-- C10 witness: a forking stepper (two successors) aborts with the
assertion failure; a single-successor stepper returns that state. -/
theorem C10_witness :
    exec_insn yOracle (cBlank 0)
      = .error (.assertFail "exec_insn: exactly one successor")
  ∧ exec_insn wOracle (cBlank 0) = .ok (cBlank 0) :=
  ⟨(C10_single_successor yOracle (cBlank 0) [cBlank 0, cBlank 0] rfl).1 (by decide),
   (C10_single_successor wOracle (cBlank 0) [cBlank 0] rfl).2 (cBlank 0) rfl⟩

/-! ## Claim C5 -/

/-- C5: every synthesized jump is size-checked against its cavity
before any byte is recorded: an encoding exactly as large as the cavity
succeeds (for `patch_uncond` the old jump instruction, for `patch_cond`
the span from the conditional move to the block's last instruction),
while an encoding even one byte larger fails with the capacity
assertion and returns no modified PatchSet at all. -/
theorem C5_capacity {St : Type} (o : Oracle St) (ps : List (Nat × Nat))
    (b tgt ca J L : Nat) :
    ((o.block b).instruction_addrs.getLast? = some J →
      (o.disas J).mnemonic = "jmp" →
      (o.asm J ("jmp 0x" ++ hex tgt)).length = (o.disas J).size →
      patch_uncond o ps b tgt
        = .ok (make_patch ps J (o.asm J ("jmp 0x" ++ hex tgt))))
  ∧ ((o.block b).instruction_addrs.getLast? = some J →
      (o.disas J).mnemonic = "jmp" →
      (o.asm J ("jmp 0x" ++ hex tgt)).length = (o.disas J).size + 1 →
      patch_uncond o ps b tgt
        = .error (.assertFail "patch_uncond: enough room for the patch"))
  ∧ ((o.disas ca).mnemonic.take 4 = "cmov" →
      (o.block ca).instruction_addrs.getLast? = some L →
      ca ≤ L →
      (o.asm ca ("j" ++ (o.disas ca).mnemonic.drop 4 ++ " 0x" ++ hex tgt)).length
        = L - ca →
      patch_cond o ps ca tgt
        = .ok (make_patch ps ca
            (o.asm ca ("j" ++ (o.disas ca).mnemonic.drop 4 ++ " 0x" ++ hex tgt))))
  ∧ ((o.disas ca).mnemonic.take 4 = "cmov" →
      (o.block ca).instruction_addrs.getLast? = some L →
      ca ≤ L →
      (o.asm ca ("j" ++ (o.disas ca).mnemonic.drop 4 ++ " 0x" ++ hex tgt)).length
        = (L - ca) + 1 →
      patch_cond o ps ca tgt
        = .error (.assertFail "patch_cond: enough room for the patch")) := by
  refine ⟨?_, ?_, ?_, ?_⟩
  · intro hlast hjm hlen
    unfold patch_uncond
    dsimp only
    rw [hlast]
    dsimp only
    rw [if_pos hjm, if_pos (by omega)]
  · intro hlast hjm hlen
    unfold patch_uncond
    dsimp only
    rw [hlast]
    dsimp only
    rw [if_pos hjm, if_neg (by omega)]
  · intro hmnem hlast hle hlen
    unfold patch_cond
    dsimp only
    rw [if_pos hmnem, hlast]
    dsimp only
    rw [if_pos (by omega)]
    have hz : (((L : Int) - (ca : Int))
        - ((o.asm ca ("j" ++ (o.disas ca).mnemonic.drop 4 ++ " 0x" ++ hex tgt)).length : Int)).toNat
        = 0 := by omega
    rw [hz]
    simp
  · intro hmnem hlast hle hlen
    unfold patch_cond
    dsimp only
    rw [if_pos hmnem, hlast]
    dsimp only
    rw [if_neg (by omega)]

/-- C5 witness: on the capacity oracle, a 5-byte jump into the 5-byte
cavity at `0x9008` succeeds, a 6-byte jump fails; a 5-byte conditional
jump into the 5-byte conditional-move cavity at `0x9003` succeeds, a
6-byte one fails — in each failure no write is recorded. -/
theorem C5_witness :
    patch_uncond uOracle [] 0x9000 0xaa00
      = .ok [(0x9008, 0xe9), (0x9009, 1), (0x900a, 2), (0x900b, 3), (0x900c, 4)]
  ∧ patch_uncond uOracle [] 0x9000 0xbb00
      = .error (.assertFail "patch_uncond: enough room for the patch")
  ∧ patch_cond uOracle [] 0x9003 0xaa00
      = .ok [(0x9003, 0x0f), (0x9004, 0x84), (0x9005, 1), (0x9006, 2), (0x9007, 3)]
  ∧ patch_cond uOracle [] 0x9003 0xbb00
      = .error (.assertFail "patch_cond: enough room for the patch") :=
  ⟨(C5_capacity uOracle [] 0x9000 0xaa00 0x9003 0x9008 0x9008).1
      (by decide) (by decide) (by decide),
   (C5_capacity uOracle [] 0x9000 0xbb00 0x9003 0x9008 0x9008).2.1
      (by decide) (by decide) (by decide),
   (C5_capacity uOracle [] 0x9000 0xaa00 0x9003 0x9008 0x9008).2.2.1
      (by decide) (by decide) (by decide) (by decide),
   (C5_capacity uOracle [] 0x9000 0xbb00 0x9003 0x9008 0x9008).2.2.2
      (by decide) (by decide) (by decide) (by decide)⟩

/-! ## Claim C4 -/

/-- C4: for a case whose switch variable changed and with exactly one
recorded conditional-move candidate `(ca, f, t)`, the synthesizer turns
the conditional move at `ca` into a conditional jump with the same
condition code to `caseMap[t]`, padding the leftover conditional-move
cavity with `0x90` no-ops, and retargets the block's final `jmp` (at
the last instruction `J` of the final block) to `caseMap[f]`. -/
theorem C4_two_way {St : Type} (o : Oracle St) (ctl : Control)
    (case fin : Nat) (patches : List (Nat × Nat)) (orig : SVal) (st : St)
    (ca f t fb tb L J : Nat)
    (hchg : sym_eq_is_true orig (get_swvar o ctl st) = false)
    (hf : lookupD ctl.swmap f = .ok fb)
    (ht : lookupD ctl.swmap t = .ok tb)
    (hmnem : (o.disas ca).mnemonic.take 4 = "cmov")
    (hlastc : (o.block ca).instruction_addrs.getLast? = some L)
    (hcav : (o.asm ca ("j" ++ (o.disas ca).mnemonic.drop 4 ++ " 0x" ++ hex tb)).length
        + ca ≤ L)
    (hlastu : (o.block fin).instruction_addrs.getLast? = some J)
    (hjmp : (o.disas J).mnemonic = "jmp")
    (hfit : (o.asm J ("jmp 0x" ++ hex fb)).length ≤ (o.disas J).size) :
    analyze_case_classify o ctl case patches orig [(ca, f, t)] st fin
      = .ok (make_patch
          (make_patch patches ca
            ((o.asm ca ("j" ++ (o.disas ca).mnemonic.drop 4 ++ " 0x" ++ hex tb))
              ++ List.replicate
                  (L - ca
                    - (o.asm ca ("j" ++ (o.disas ca).mnemonic.drop 4 ++ " 0x" ++ hex tb)).length)
                  0x90))
          J (o.asm J ("jmp 0x" ++ hex fb))) := by
  have hpc : patch_cond o patches ca tb
      = .ok (make_patch patches ca
          ((o.asm ca ("j" ++ (o.disas ca).mnemonic.drop 4 ++ " 0x" ++ hex tb))
            ++ List.replicate
                (L - ca
                  - (o.asm ca ("j" ++ (o.disas ca).mnemonic.drop 4 ++ " 0x" ++ hex tb)).length)
                0x90)) := by
    unfold patch_cond
    dsimp only
    rw [if_pos hmnem, hlastc]
    dsimp only
    rw [if_pos (by omega)]
    have hz : (((L : Int) - (ca : Int))
        - ((o.asm ca ("j" ++ (o.disas ca).mnemonic.drop 4 ++ " 0x" ++ hex tb)).length : Int)).toNat
        = L - ca
          - (o.asm ca ("j" ++ (o.disas ca).mnemonic.drop 4 ++ " 0x" ++ hex tb)).length := by
      omega
    rw [hz]
  have hpu : ∀ ps' : List (Nat × Nat), patch_uncond o ps' fin fb
      = .ok (make_patch ps' J (o.asm J ("jmp 0x" ++ hex fb))) := by
    intro ps'
    unfold patch_uncond
    dsimp only
    rw [hlastu]
    dsimp only
    rw [if_pos hjmp, if_pos (by omega)]
  unfold analyze_case_classify
  dsimp only
  rw [hchg]
  rw [if_pos (by simp)]
  rw [hf]
  dsimp only
  rw [ht]
  dsimp only
  rw [hpc]
  dsimp only
  rw [hpu]

/-- C4 witness: scenario S's case `0x3000` — the `cmovne` at `0x3008`
becomes a 6-byte `jne 0x4000` exactly filling the cavity, and the final
`jmp` at `0x300e` becomes `jmp 0x3000`. -/
theorem C4_witness :
    analyze_case_classify sOracle sCtl 0x3000 []
        (.sym "swvar0_rev")
        [(0x3008, 1, 2)]
        ({ pc := .bvv 0x2000, sp := .sym "sp0", bp := .bvv 0x7fff0000,
           eax := .sym "eax0", ecx := .bvv 2, edx := .sym "ite",
           swvar := .sym "ite_raw" } : CState)
        0x3000
      = .ok [(0x3008, 0x0f), (0x3009, 0x85), (0x300a, 0xaa), (0x300b, 0xbb),
             (0x300c, 0xcc), (0x300d, 0xdd),
             (0x300e, 0xe9), (0x300f, 0x11), (0x3010, 0x22), (0x3011, 0x33),
             (0x3012, 0x44)] :=
  C4_two_way sOracle sCtl 0x3000 0x3000 [] (.sym "swvar0_rev")
    ({ pc := .bvv 0x2000, sp := .sym "sp0", bp := .bvv 0x7fff0000,
       eax := .sym "eax0", ecx := .bvv 2, edx := .sym "ite",
       swvar := .sym "ite_raw" } : CState)
    0x3008 1 2 0x3000 0x4000 0x300e 0x300e
    (by decide) (by rfl) (by rfl) (by decide) (by decide) (by decide)
    (by decide) (by decide) (by decide)

/-! ## Claim C3 -/

/-- C3 counterexample: in scenario T the case `0x6000` records TWO
conditional-move candidates, its final switch value is concrete (`2`)
and differs from the original, and `analyze_case` does NOT fail — it
emits a one-way patch (`jmp` to `caseMap[2] = 0x7000`), where the claim
demands a fatal unsupported-transfer-pattern error. -/
theorem C3_counterexample :
    analyze_case_loop tOracle tShape tCtl 5 []
        (cSetReg (cBlank 0x6000) "bp" (.bvv tCtl.default_bp)) 0x6000
      = .ok ([(0x6008, 1, 2), (0x600b, 1, 2)],
          ({ pc := .bvv 0x2000, sp := .sym "sp0", bp := .bvv 0x7fff0000,
             eax := .sym "eax0", ecx := .bvv 2, edx := .bvv 2,
             swvar := .bvv 0x02000000 } : CState), 0x6000)
  ∧ get_swvar tOracle tCtl
      ({ pc := .bvv 0x2000, sp := .sym "sp0", bp := .bvv 0x7fff0000,
         eax := .sym "eax0", ecx := .bvv 2, edx := .bvv 2,
         swvar := .bvv 0x02000000 } : CState) = .bvv 2
  ∧ sym_eq_is_true
      (get_swvar tOracle tCtl (cSetReg (cBlank 0x6000) "bp" (.bvv tCtl.default_bp)))
      (.bvv 2) = false
  ∧ analyze_case tOracle tShape tCtl [] 5 0x6000
      = .ok [(0x6011, 0xe9), (0x6012, 0x51), (0x6013, 0x52), (0x6014, 0x53),
             (0x6015, 0x54)] :=
  ⟨rfl, rfl, rfl, rfl⟩

/-- C3 (amended): when the switch variable changed and the candidate
count is NOT one, Pass 2 classifies the case as a one-way transfer
whenever the final value is concrete (regardless of how many candidates
were recorded — zero, two or more), and raises the fatal
unsupported-transfer error, named with the case address, exactly when
the final value is symbolic. -/
theorem C3_one_way {St : Type} (o : Oracle St) (ctl : Control)
    (case fin : Nat) (patches : List (Nat × Nat)) (orig : SVal) (st : St)
    (cmov_info : List (Nat × Nat × Nat))
    (hchg : sym_eq_is_true orig (get_swvar o ctl st) = false)
    (hlen : cmov_info.length ≠ 1) :
    (∀ v target, get_swvar o ctl st = .bvv v →
        lookupD ctl.swmap v = .ok target →
        analyze_case_classify o ctl case patches orig cmov_info st fin
          = patch_uncond o patches fin target)
  ∧ (sym_is_val (get_swvar o ctl st) = false →
      analyze_case_classify o ctl case patches orig cmov_info st fin
        = .error (.cannotDetermineTransfer case)) := by
  constructor
  · intro v target hv hlook
    unfold analyze_case_classify
    dsimp only
    rw [hchg, if_pos (by simp)]
    rcases cmov_info with _ | ⟨p1, tl1⟩
    · dsimp only
      rw [hv, if_pos (by rfl)]
      dsimp only
      rw [hlook]
    · rcases tl1 with _ | ⟨p2, tl2⟩
      · exact absurd rfl hlen
      · dsimp only
        rw [hv, if_pos (by rfl)]
        dsimp only
        rw [hlook]
  · intro hsym
    unfold analyze_case_classify
    dsimp only
    rw [hchg, if_pos (by simp)]
    rcases cmov_info with _ | ⟨p1, tl1⟩
    · dsimp only
      rw [if_neg (by simp [hsym])]
    · rcases tl1 with _ | ⟨p2, tl2⟩
      · exact absurd rfl hlen
      · dsimp only
        rw [if_neg (by simp [hsym])]

/-- C3 witness: the amended theorem on scenario T's recorded data — the
two-candidate, concrete-value case reduces to the one-way
`patch_uncond` toward `caseMap[2] = 0x7000`, and the same data with a
symbolic final value raises the fatal error naming case `0x6000`. -/
theorem C3_witness :
    analyze_case_classify tOracle tCtl 0x6000 [] (.sym "swvar0_rev")
        [(0x6008, 1, 2), (0x600b, 1, 2)]
        ({ pc := .bvv 0x2000, sp := .sym "sp0", bp := .bvv 0x7fff0000,
           eax := .sym "eax0", ecx := .bvv 2, edx := .bvv 2,
           swvar := .bvv 0x02000000 } : CState) 0x6000
      = patch_uncond tOracle [] 0x6000 0x7000
  ∧ analyze_case_classify tOracle tCtl 0x6000 [] (.sym "swvar0_rev")
        [(0x6008, 1, 2), (0x600b, 1, 2)]
        ({ pc := .bvv 0x2000, sp := .sym "sp0", bp := .bvv 0x7fff0000,
           eax := .sym "eax0", ecx := .bvv 2, edx := .bvv 2,
           swvar := .sym "mystery" } : CState) 0x6000
      = .error (.cannotDetermineTransfer 0x6000) :=
  ⟨(C3_one_way tOracle tCtl 0x6000 0x6000 [] (.sym "swvar0_rev")
      ({ pc := .bvv 0x2000, sp := .sym "sp0", bp := .bvv 0x7fff0000,
         eax := .sym "eax0", ecx := .bvv 2, edx := .bvv 2,
         swvar := .bvv 0x02000000 } : CState)
      [(0x6008, 1, 2), (0x600b, 1, 2)] (by decide) (by decide)).1
      2 0x7000 (by decide) (by rfl),
   (C3_one_way tOracle tCtl 0x6000 0x6000 [] (.sym "swvar0_rev")
      ({ pc := .bvv 0x2000, sp := .sym "sp0", bp := .bvv 0x7fff0000,
         eax := .sym "eax0", ecx := .bvv 2, edx := .bvv 2,
         swvar := .sym "mystery" } : CState)
      [(0x6008, 1, 2), (0x600b, 1, 2)] (by decide) (by decide)).2
      (by decide)⟩

/-! ## Claim C6 -/

/-- C6 counterexample: in scenario V the switch variable BECOMES
concrete (value `5`, a key of the switch map) at the last instruction
of the block in front of the collector, yet Pass 1 fails with the fatal
cannot-find-initial-switch-value error instead of taking `5` as the
initial switch value — because the concreteness check runs before each
instruction and no check runs once the collector is reached. -/
theorem C6_counterexample :
    exec_block vOracle (some (check_swvar vOracle vCtl)) none
        (cSetReg (cBlank 0x1000) "sp" (.bvv (vCtl.default_bp + 8))) 0x1000
      = .ok (none,
          ({ pc := .bvv 0x2000, sp := .bvv 0x7fff0008, bp := .sym "bp0",
             eax := .sym "eax0", ecx := .sym "ecx0", edx := .sym "edx0",
             swvar := .bvv 0x05000000 } : CState), 0x2000)
  ∧ get_swvar vOracle vCtl
      ({ pc := .bvv 0x2000, sp := .bvv 0x7fff0008, bp := .sym "bp0",
         eax := .sym "eax0", ecx := .sym "ecx0", edx := .sym "edx0",
         swvar := .bvv 0x05000000 } : CState) = .bvv 5
  ∧ keyMem vCtl.swmap 5 = true
  ∧ vShape.collector = 0x2000
  ∧ analyze_dispatcher vOracle vShape vCtl [] 9
      = .error .cannotFindInitialSwval :=
  ⟨rfl, rfl, rfl, rfl, rfl⟩

theorem analyze_dispatcher_loop_zero {St : Type} (o : Oracle St)
    (shape : ShapeData) (ctl : Control) (patches : List (Nat × Nat))
    (a : Option Nat) (st : St) (addr : Nat) :
    analyze_dispatcher_loop o shape ctl patches 0 a st addr
      = if addr ≠ shape.collector ∧ addr ∉ shape.exits then
          .error .outOfFuel
        else
          match a with
          | none => .error .cannotFindInitialSwval
          | some _ => .ok patches := rfl

theorem analyze_dispatcher_loop_succ {St : Type} (o : Oracle St)
    (shape : ShapeData) (ctl : Control) (patches : List (Nat × Nat))
    (fuel : Nat) (a : Option Nat) (st : St) (addr : Nat) :
    analyze_dispatcher_loop o shape ctl patches (fuel + 1) a st addr
      = if addr ≠ shape.collector ∧ addr ∉ shape.exits then
          match exec_block o (some (check_swvar o ctl)) a st addr with
          | .error e => .error e
          | .ok (a', st', addr') =>
            match a' with
            | some v => patch_dispatcher o shape ctl patches v
            | none => analyze_dispatcher_loop o shape ctl patches fuel none st' addr'
        else
          match a with
          | none => .error .cannotFindInitialSwval
          | some _ => .ok patches := rfl

/-- C6 (amended): Pass 1 checks concreteness before each instruction;
reaching the collector or an exit block with no concrete observation is
the fatal cannot-find-initial-switch-value error (first conjunct); a
check that observes a concrete value stops stepping at once (second
conjunct); and a loop step whose block's first check observes value `v`
emits the dispatcher patch for `v` as the initial switch value (third
conjunct). -/
theorem C6_initial_dispatch {St : Type} (o : Oracle St) (shape : ShapeData)
    (ctl : Control) (patches : List (Nat × Nat)) (fuel : Nat) (st : St)
    (addr v pcv a0 : Nat) (rest : List Nat) :
    (addr = shape.collector ∨ addr ∈ shape.exits →
      analyze_dispatcher_loop o shape ctl patches fuel none st addr
        = .error .cannotFindInitialSwval)
  ∧ (get_swvar o ctl st = .bvv v →
      exec_insns o (some (check_swvar o ctl)) none st (a0 :: rest)
        = .ok (some v, st))
  ∧ (addr ≠ shape.collector → addr ∉ shape.exits →
      (o.block addr).jumpkind = .boring →
      (o.block addr).instruction_addrs = a0 :: rest →
      get_swvar o ctl st = .bvv v →
      o.getReg st "pc" = .bvv pcv →
      analyze_dispatcher_loop o shape ctl patches (fuel + 1) none st addr
        = patch_dispatcher o shape ctl patches v) := by
  have hins : get_swvar o ctl st = .bvv v →
      exec_insns o (some (check_swvar o ctl)) none st (a0 :: rest)
        = .ok (some v, st) := by
    intro hsw
    unfold exec_insns
    dsimp only
    unfold check_swvar
    rw [hsw]
    rfl
  refine ⟨?_, hins, ?_⟩
  · intro h
    have hneg : ¬ (addr ≠ shape.collector ∧ addr ∉ shape.exits) := by
      rcases h with h | h
      · exact fun hc => hc.1 h
      · exact fun hc => hc.2 h
    cases fuel with
    | zero =>
      rw [analyze_dispatcher_loop_zero, if_neg hneg]
    | succ n =>
      rw [analyze_dispatcher_loop_succ, if_neg hneg]
  · intro h1 h2 hjk hi hsw hpc
    rw [analyze_dispatcher_loop_succ, if_pos ⟨h1, h2⟩]
    unfold exec_block
    dsimp only
    rw [hjk]
    dsimp only
    rw [hi, hins hsw]
    dsimp only
    rw [hpc]

/-- C6 witness: the amended theorem on scenario S — starting at the
collector without a concrete observation fails fatally, and a loop step
at `0x1008` whose first check sees the concrete raw value `0x01000000`
(little-endian `1`) emits the dispatcher patch for initial value `1`. -/
theorem C6_witness :
    analyze_dispatcher_loop sOracle sShape sCtl [] 3 none (cBlank 0x2000) 0x2000
      = .error .cannotFindInitialSwval
  ∧ analyze_dispatcher_loop sOracle sShape sCtl [] 4 none
        ({ pc := .bvv 0, sp := .sym "sp0", bp := .sym "bp0", eax := .sym "eax0",
           ecx := .sym "ecx0", edx := .sym "edx0",
           swvar := .bvv 0x01000000 } : CState) 0x1008
      = patch_dispatcher sOracle sShape sCtl [] 1 :=
  ⟨(C6_initial_dispatch sOracle sShape sCtl [] 3 (cBlank 0x2000)
      0x2000 1 0 0x1008 []).1 (Or.inl rfl),
   (C6_initial_dispatch sOracle sShape sCtl [] 3
      ({ pc := .bvv 0, sp := .sym "sp0", bp := .sym "bp0", eax := .sym "eax0",
         ecx := .sym "ecx0", edx := .sym "edx0",
         swvar := .bvv 0x01000000 } : CState) 0x1008 1 0 0x1008 []).2.2
      (by decide) (by decide) (by decide) (by decide) (by decide) (by decide)⟩
